import Mathlib

/-!
Shallow embedding of the pod-networks codec from
go-controller/pkg/util/pod_annotation.go, and of the node address
reconciler described by the specification (its implementation is
exercised only through tests in the provided sources).

Machine-level strings are embedded at the value level: a wire-format
string field is either the canonical rendering of a structured value
(an address, a CIDR, a MAC), the empty string, or an unparseable
string.  Go's formatting and parsing functions are inverse on canonical
renderings, which is what these constructors capture.  IPv4 addresses
are tagged v4 and IPv6 addresses v6; Go reports the family of a parsed
address via To4, so v4-mapped forms are represented with the v4 tag.
-/

/-- An IP address: family tag plus numeric value (v4 below 2^32, v6 below 2^128). -/
inductive IPAddr where
  | v4 (a : Nat)
  | v6 (a : Nat)
deriving DecidableEq, Repr

/-- Family width in bits, as used by net.IPNet masks. -/
def IPAddr.width : IPAddr → Nat
  | .v4 _ => 32
  | .v6 _ => 128

/-- Embeds utilnet.IsIPv6: true exactly for the IPv6 family. -/
def IPAddr.isIPv6 : IPAddr → Bool
  | .v4 _ => false
  | .v6 _ => true

/-- Embeds net.IP.IsUnspecified: the all-zero address of either family. -/
def IPAddr.isUnspecified : IPAddr → Bool
  | .v4 a => a = 0
  | .v6 a => a = 0

/-- Clearing the low (width - pfx) bits, as applied by net.ParseCIDR to
the network portion of a parsed CIDR. -/
def maskIP (ip : IPAddr) (pfx : Nat) : IPAddr :=
  match ip with
  | .v4 a => .v4 (a / 2 ^ (32 - pfx) * 2 ^ (32 - pfx))
  | .v6 a => .v6 (a / 2 ^ (128 - pfx) * 2 ^ (128 - pfx))

/-- Embeds net.IPNet as used by the codec: an address together with a
prefix length.  The IP field may keep host bits (UnmarshalPodAnnotation
stores the unmasked address back into the parsed ipnet for pod IPs). -/
structure IPNet where
  ip : IPAddr
  pfx : Nat
deriving DecidableEq, Repr

/-- Embeds util.PodRoute: a destination prefix and an optional next hop. -/
structure PodRoute where
  Dest : IPNet
  NextHop : Option IPAddr
deriving DecidableEq, Repr

/-- Embeds util.PodAnnotation (MAC kept as its octet list). -/
structure PodAnn where
  IPs : List IPNet
  MAC : List Nat
  Gateways : List IPAddr
  Routes : List PodRoute
deriving DecidableEq, Repr

/-- A wire string holding a CIDR: canonical rendering, empty, or garbage. -/
inductive CIDRStr where
  | empty
  | valid (ip : IPAddr) (pfx : Nat)
  | garbage
deriving DecidableEq, Repr

/-- A wire string holding a bare IP address. -/
inductive IPStr where
  | empty
  | valid (ip : IPAddr)
  | garbage
deriving DecidableEq, Repr

/-- A wire string holding a MAC address. -/
inductive MACStr where
  | empty
  | valid (mac : List Nat)
  | garbage
deriving DecidableEq, Repr

/-- Embeds the internal podRoute wire struct (fields dest, nextHop). -/
structure PodRouteWire where
  dest : CIDRStr
  nextHop : IPStr
deriving DecidableEq, Repr

/-- Embeds the internal podAnnotation wire struct: plural fields
ip_addresses, mac_address, gateway_ips, routes, and the deprecated
singular fields ip_address and gateway_ip. -/
structure WireRecord where
  ips : List CIDRStr
  mac : MACStr
  gateways : List IPStr
  routes : List PodRouteWire
  ip : CIDRStr
  gateway : IPStr
deriving DecidableEq, Repr

/-- The zero value of the wire struct, produced by Go map indexing when
the requested network entry is absent. -/
def emptyWireRecord : WireRecord :=
  { ips := [], mac := .empty, gateways := [], routes := [], ip := .empty, gateway := .empty }

/-- The value stored under the pod-networks annotation key, after the
key lookup and the JSON layer: absent key, unparseable value, or the
parsed map from network name to wire record. -/
inductive AnnValue where
  | absent
  | malformed
  | parsed (networks : List (String × WireRecord))
deriving DecidableEq, Repr

/-- OvnPodDefaultNetwork, the key of the default network entry. -/
def defaultNetKey : String := "default"

/-- The error outcomes of the codec and the read helpers.  All decode
errors other than a missing annotation key and an unparseable JSON
value are invalid-configuration errors. -/
inductive PodAnnErr where
  | notPresent
  | malformedJSON
  | invalidMAC
  | noIPs
  | ipConflict
  | badIP
  | gwConflict
  | badGateway
  | badRouteDest
  | defaultRouteAsGw
  | badNextHop
  | nextHopFamilyMismatch
  | singleStackMultipleGateways
  | noPodIPFound
deriving DecidableEq, Repr

/-- Classifies an error as an invalid-configuration error (as opposed
to the annotation being absent, the raw value being unparseable, or no
pod IP being found by the read helper). -/
def PodAnnErr.isInvalidConfig : PodAnnErr → Bool
  | .notPresent => false
  | .malformedJSON => false
  | .noPodIPFound => false
  | _ => true

/-- Embeds net.ParseCIDR: succeeds on a canonical CIDR rendering with a
prefix length within the family width, yielding the (unmasked) address
and the prefix length. -/
def parseCIDR : CIDRStr → Option (IPAddr × Nat)
  | .valid ip pfx => if pfx ≤ ip.width then some (ip, pfx) else none
  | _ => none

/-- Embeds net.ParseIP (and utilnet.ParseIPSloppy) at the value level:
succeeds exactly on a rendering of an address. -/
def parseIPgo : IPStr → Option IPAddr
  | .valid ip => some ip
  | _ => none

/-- Embeds net.ParseMAC: succeeds exactly on a rendering of a MAC. -/
def parseMACgo : MACStr → Option (List Nat)
  | .valid m => some m
  | _ => none

/-- Embeds net.HardwareAddr.String followed by parseability: Go renders
any non-empty octet list, and ParseMAC accepts lengths 6, 8 and 20. -/
def macToStr (m : List Nat) : MACStr :=
  if m.length = 6 ∨ m.length = 8 ∨ m.length = 20 then .valid m
  else if m = [] then .empty
  else .garbage

/-- Embeds net.IPNet.String on a codec-produced value: the canonical
address/prefix rendering. -/
def cidrToStr (n : IPNet) : CIDRStr := .valid n.ip n.pfx

/-- Renders an optional next hop: Go leaves the field empty when the
next hop is nil. -/
def nhToStr : Option IPAddr → IPStr
  | none => .empty
  | some nh => .valid nh

/-- The wire form of one route as built by MarshalPodAnnotation's route
loop body (dest and next hop rendered to strings). -/
def encodeRouteWire (r : PodRoute) : PodRouteWire :=
  { dest := cidrToStr r.Dest, nextHop := nhToStr r.NextHop }

/-- The route loop of MarshalPodAnnotation: rejects any route whose
destination address is unspecified (a default route must be a gateway),
otherwise renders each route in order. -/
def marshalRoutes : List PodRoute → Except PodAnnErr (List PodRouteWire)
  | [] => .ok []
  | r :: rest =>
    if r.Dest.ip.isUnspecified = true then .error .defaultRouteAsGw
    else
      match marshalRoutes rest with
      | .error e => .error e
      | .ok tl => .ok (encodeRouteWire r :: tl)

/-- The singular-field logic of MarshalPodAnnotation: with exactly one
IP, emit the singular ip_address, and the singular gateway_ip when
there is exactly one gateway; more than one gateway with a single IP is
the single-stack error.  With any other number of IPs both singular
fields stay empty. -/
def marshalSingulars (p : PodAnn) : Except PodAnnErr (CIDRStr × IPStr) :=
  match p.IPs with
  | [n] =>
    match p.Gateways with
    | [] => .ok (cidrToStr n, .empty)
    | [g] => .ok (cidrToStr n, .valid g)
    | _ :: _ :: _ => .error .singleStackMultipleGateways
  | _ => .ok (.empty, .empty)

/-- Embeds MarshalPodAnnotation: builds the wire record for the default
network and wraps it under the well-known annotation key.  The
singular-field check runs before the route loop, matching the source
order. -/
def marshalPodAnn (p : PodAnn) : Except PodAnnErr AnnValue :=
  match marshalSingulars p with
  | .error e => .error e
  | .ok s =>
    match marshalRoutes p.Routes with
    | .error e => .error e
    | .ok routes =>
      .ok (.parsed [(defaultNetKey,
        { ips := p.IPs.map cidrToStr
          mac := macToStr p.MAC
          gateways := p.Gateways.map IPStr.valid
          routes := routes
          ip := s.1
          gateway := s.2 })])

/-- The ip_addresses/ip_address resolution of UnmarshalPodAnnotation:
an empty plural list falls back to the singular (erroring when that is
also empty), and a non-empty plural list must agree with a non-empty
singular on its first element. -/
def resolvePlural (plural : List CIDRStr) (singular : CIDRStr) :
    Except PodAnnErr (List CIDRStr) :=
  match plural with
  | [] =>
    if singular = CIDRStr.empty then .error .noIPs
    else .ok [singular]
  | x :: xs =>
    if singular ≠ CIDRStr.empty ∧ singular ≠ x then .error .ipConflict
    else .ok (x :: xs)

/-- The gateway_ips/gateway_ip resolution of UnmarshalPodAnnotation:
like the IP resolution, except that having no gateway at all is not an
error. -/
def resolveGateways (plural : List IPStr) (singular : IPStr) :
    Except PodAnnErr (List IPStr) :=
  match plural with
  | [] =>
    if singular ≠ IPStr.empty then .ok [singular] else .ok []
  | x :: xs =>
    if singular ≠ IPStr.empty ∧ singular ≠ x then .error .gwConflict
    else .ok (x :: xs)

/-- The pod-IP parsing loop of UnmarshalPodAnnotation: each entry is
parsed as a CIDR and the unmasked address is kept. -/
def decodeIPList : List CIDRStr → Except PodAnnErr (List IPNet)
  | [] => .ok []
  | s :: rest =>
    match parseCIDR s with
    | none => .error .badIP
    | some ippfx =>
      match decodeIPList rest with
      | .error e => .error e
      | .ok tl => .ok ({ ip := ippfx.1, pfx := ippfx.2 } :: tl)

/-- The gateway parsing loop of UnmarshalPodAnnotation. -/
def decodeGWList : List IPStr → Except PodAnnErr (List IPAddr)
  | [] => .ok []
  | s :: rest =>
    match parseIPgo s with
    | none => .error .badGateway
    | some gw =>
      match decodeGWList rest with
      | .error e => .error e
      | .ok tl => .ok (gw :: tl)

/-- The route loop body of UnmarshalPodAnnotation: parse the
destination (masked by ParseCIDR), reject an unspecified destination,
then parse the next hop when present and reject a family mismatch with
the destination. -/
def decodeRoute (r : PodRouteWire) : Except PodAnnErr PodRoute :=
  match parseCIDR r.dest with
  | none => .error .badRouteDest
  | some ippfx =>
    if (maskIP ippfx.1 ippfx.2).isUnspecified = true then .error .defaultRouteAsGw
    else
      match r.nextHop with
      | .empty => .ok { Dest := { ip := maskIP ippfx.1 ippfx.2, pfx := ippfx.2 }, NextHop := none }
      | s =>
        match parseIPgo s with
        | none => .error .badNextHop
        | some nh =>
          if nh.isIPv6 ≠ (maskIP ippfx.1 ippfx.2).isIPv6 then .error .nextHopFamilyMismatch
          else .ok { Dest := { ip := maskIP ippfx.1 ippfx.2, pfx := ippfx.2 }, NextHop := some nh }

/-- The route loop of UnmarshalPodAnnotation. -/
def decodeRouteList : List PodRouteWire → Except PodAnnErr (List PodRoute)
  | [] => .ok []
  | r :: rest =>
    match decodeRoute r with
    | .error e => .error e
    | .ok route =>
      match decodeRouteList rest with
      | .error e => .error e
      | .ok tl => .ok (route :: tl)

/-- The per-record body of UnmarshalPodAnnotation: MAC first, then IPs,
gateways and routes, in source order. -/
def decodeRecord (a : WireRecord) : Except PodAnnErr PodAnn :=
  match parseMACgo a.mac with
  | none => .error .invalidMAC
  | some mac =>
    match resolvePlural a.ips a.ip with
    | .error e => .error e
    | .ok ipstrs =>
      match decodeIPList ipstrs with
      | .error e => .error e
      | .ok ips =>
        match resolveGateways a.gateways a.gateway with
        | .error e => .error e
        | .ok gwstrs =>
          match decodeGWList gwstrs with
          | .error e => .error e
          | .ok gws =>
            match decodeRouteList a.routes with
            | .error e => .error e
            | .ok routes => .ok { IPs := ips, MAC := mac, Gateways := gws, Routes := routes }

/-- Embeds UnmarshalPodAnnotation: a missing key and an unparseable
value are distinct errors; a parsed map is indexed at the default
network key with Go zero-value semantics (a missing entry yields the
empty record). -/
def unmarshalPodAnn : AnnValue → Except PodAnnErr PodAnn
  | .absent => .error .notPresent
  | .malformed => .error .malformedJSON
  | .parsed nets => decodeRecord ((nets.lookup defaultNetKey).getD emptyWireRecord)

/-- Embeds the relevant pod fields consumed by GetAllPodIPs:
Status.PodIPs, the annotations (abstracted to the pod-networks value),
and the legacy Status.PodIP field. -/
structure Pod where
  statusPodIPs : List IPStr
  annotations : AnnValue
  statusPodIP : IPStr
deriving DecidableEq, Repr

/-- The legacy fallback of GetAllPodIPs: parse Status.PodIP, erroring
with ErrNoPodIPFound when it does not parse. -/
def legacyPodIP (pod : Pod) : Except PodAnnErr (List IPAddr) :=
  match parseIPgo pod.statusPodIP with
  | some ip => .ok [ip]
  | none => .error .noPodIPFound

/-- Embeds GetAllPodIPs: Status.PodIPs entries that parse are returned
first; otherwise a valid pod-networks annotation with at least one IP
is used; otherwise the legacy Status.PodIP field. -/
def GetAllPodIPs (pod : Pod) : Except PodAnnErr (List IPAddr) :=
  match pod.statusPodIPs.filterMap parseIPgo with
  | x :: xs => .ok (x :: xs)
  | [] =>
    match unmarshalPodAnn pod.annotations with
    | .ok ann =>
      match ann.IPs.map IPNet.ip with
      | y :: ys => .ok (y :: ys)
      | [] => legacyPodIP pod
    | .error _ => legacyPodIP pod



/-- Modelled from the spec: the reconciler's excluded-address
configuration (the addressManager implementation is not among the
provided sources; only its tests are).  It holds the IPv4/IPv6
management-port interface addresses and the IPv4/IPv6 masquerade
addresses, computed once at construction. -/
structure AddrMgrConfig where
  mgmtV4 : IPNet
  mgmtV6 : IPNet
  masqV4 : IPAddr
  masqV6 : IPAddr
deriving DecidableEq, Repr

/-- Modelled from the spec: the pure address filter.  An address is
publishable unless it equals, ignoring prefix length, one of the
management-port or masquerade addresses. -/
def IsPublishable (cfg : AddrMgrConfig) (a : IPNet) : Bool :=
  ¬(a.ip = cfg.mgmtV4.ip ∨ a.ip = cfg.mgmtV6.ip ∨ a.ip = cfg.masqV4 ∨ a.ip = cfg.masqV6)

/-- An OS interface address event delivered on the subscription. -/
inductive AddrEvent where
  | add (a : IPNet)
  | remove (a : IPNet)
deriving DecidableEq, Repr

/-- Modelled from the spec: how one address event updates the published
address set.  Events failing the filter are ignored; the set holds each
address value once. -/
def applyAddrEvent (cfg : AddrMgrConfig) (s : List IPAddr) : AddrEvent → List IPAddr
  | .add a =>
    if IsPublishable cfg a = true then
      (if a.ip ∈ s then s else s ++ [a.ip])
    else s
  | .remove a =>
    if IsPublishable cfg a = true then s.filter (fun x => x ≠ a.ip) else s

/-- Modelled from the spec: the reconciler's observable state — whether
the stop signal has been observed, whether a live subscription is held,
and the published node address set (the host-cidrs annotation). -/
structure MgrState where
  stopped : Bool
  subscribed : Bool
  published : List IPAddr
deriving DecidableEq, Repr

/-- An input to the reconciler loop: an address event, closure of the
event subscription, or the stop signal. -/
inductive MgrEvent where
  | addr (e : AddrEvent)
  | subClosed
  | stop
deriving DecidableEq, Repr

/-- Modelled from the spec: one step of the reconciler loop.  After
stop nothing changes.  Closure of the subscription while running leads
to re-acquisition of a fresh subscription (the resubscription loop,
which only the stop signal can interrupt), never to termination.
Address events are processed through the filter while subscribed. -/
def mgrStep (cfg : AddrMgrConfig) (s : MgrState) : MgrEvent → MgrState
  | .stop =>
    if s.stopped = true then s else { s with stopped := true, subscribed := false }
  | .subClosed =>
    if s.stopped = true then s else { s with subscribed := true }
  | .addr e =>
    if s.stopped = true then s
    else if s.subscribed = true then { s with published := applyAddrEvent cfg s.published e }
    else s

/-- Whether a route's next hop, when present, shares the destination's
address family. -/
def nhFamilyOK (r : PodRoute) : Bool :=
  match r.NextHop with
  | none => true
  | some nh => nh.isIPv6 = r.Dest.ip.isIPv6

/-- Validity of one route for the round-trip argument: a specified,
properly masked destination whose prefix fits the family, and a next
hop (when present) of the destination's family. -/
def RouteOK (r : PodRoute) : Prop :=
  r.Dest.ip.isUnspecified = false ∧
  r.Dest.pfx ≤ r.Dest.ip.width ∧
  maskIP r.Dest.ip r.Dest.pfx = r.Dest.ip ∧
  nhFamilyOK r = true

instance (r : PodRoute) : Decidable (RouteOK r) :=
  inferInstanceAs (Decidable (r.Dest.ip.isUnspecified = false ∧
    r.Dest.pfx ≤ r.Dest.ip.width ∧
    maskIP r.Dest.ip r.Dest.pfx = r.Dest.ip ∧
    nhFamilyOK r = true))

/-- A MAC octet list that Go renders and re-parses (lengths 6, 8, 20). -/
def MACOK (m : List Nat) : Prop :=
  m.length = 6 ∨ m.length = 8 ∨ m.length = 20

instance (m : List Nat) : Decidable (MACOK m) :=
  inferInstanceAs (Decidable (m.length = 6 ∨ m.length = 8 ∨ m.length = 20))

/-- Validity of a PodAnnotation value for the round-trip property: at
least one IP, a renderable MAC, prefix lengths within the family
width, at most one gateway when there is exactly one IP, and valid
routes. -/
def ValidPodAnn (p : PodAnn) : Prop :=
  p.IPs ≠ [] ∧
  MACOK p.MAC ∧
  (∀ n ∈ p.IPs, n.pfx ≤ n.ip.width) ∧
  (p.IPs.length = 1 → p.Gateways.length ≤ 1) ∧
  (∀ r ∈ p.Routes, RouteOK r)

instance (p : PodAnn) : Decidable (ValidPodAnn p) :=
  inferInstanceAs (Decidable (p.IPs ≠ [] ∧
    MACOK p.MAC ∧
    (∀ n ∈ p.IPs, n.pfx ≤ n.ip.width) ∧
    (p.IPs.length = 1 → p.Gateways.length ≤ 1) ∧
    (∀ r ∈ p.Routes, RouteOK r)))

/-- A wire record with a valid MAC and the single IP 10.0.0.2/24, used
to exercise the read helper's priority order. -/
def recC1 : WireRecord :=
  { ips := [.valid (.v4 167772162) 24], mac := .valid [1, 2, 3, 4, 5, 6],
    gateways := [], routes := [], ip := .valid (.v4 167772162) 24, gateway := .empty }

/-- A pod carrying both a parseable platform status address (10.0.0.1)
and a valid pod-networks record with a different address (10.0.0.2). -/
def podC1 : Pod :=
  { statusPodIPs := [.valid (.v4 167772161)],
    annotations := .parsed [(defaultNetKey, recC1)],
    statusPodIP := .empty }

/-- The same pod without any platform status address. -/
def podC1w : Pod :=
  { statusPodIPs := [], annotations := .parsed [(defaultNetKey, recC1)], statusPodIP := .empty }

/-- An annotation value whose route destination 10.0.0.1/24 keeps host
bits: every validity condition named by the round-trip claim holds, yet
decode masks the destination. -/
def podC2 : PodAnn :=
  { IPs := [{ ip := .v4 5, pfx := 24 }], MAC := [1, 2, 3, 4, 5, 6], Gateways := [],
    Routes := [{ Dest := { ip := .v4 167772161, pfx := 24 }, NextHop := none }] }

/-- The value podC2 decodes to after a marshal/unmarshal round trip:
the route destination has been masked to 10.0.0.0/24. -/
def podC2dec : PodAnn :=
  { IPs := [{ ip := .v4 5, pfx := 24 }], MAC := [1, 2, 3, 4, 5, 6], Gateways := [],
    Routes := [{ Dest := { ip := .v4 167772160, pfx := 24 }, NextHop := none }] }

/-- An annotation value with two IPs and exactly one gateway. -/
def podC3 : PodAnn :=
  { IPs := [{ ip := .v4 1, pfx := 24 }, { ip := .v6 1, pfx := 64 }],
    MAC := [1, 2, 3, 4, 5, 6], Gateways := [.v4 3], Routes := [] }

/-- A wire record in which the singular ip_address (10.0.0.1/24) and
the first plural ip_addresses entry (10.0.0.2/24) disagree. -/
def recC4 : WireRecord :=
  { ips := [.valid (.v4 167772162) 24], mac := .valid [1, 2, 3, 4, 5, 6],
    gateways := [], routes := [], ip := .valid (.v4 167772161) 24, gateway := .empty }

/-- An excluded-address configuration used by the reconciler witnesses. -/
def cfgW : AddrMgrConfig :=
  { mgmtV4 := { ip := .v4 11, pfx := 24 }, mgmtV6 := { ip := .v6 11, pfx := 64 },
    masqV4 := .v4 12, masqV6 := .v6 12 }

theorem decodeIPList_encode (l : List IPNet) (h : ∀ n ∈ l, n.pfx ≤ n.ip.width) :
    decodeIPList (l.map cidrToStr) = .ok l := by
  induction l with
  | nil => rfl
  | cons x xs ih =>
    have hx : x.pfx ≤ x.ip.width := h x (by simp)
    have hxs : ∀ n ∈ xs, n.pfx ≤ n.ip.width := fun n hn => h n (by simp [hn])
    simp [decodeIPList, cidrToStr, parseCIDR, hx, ih hxs]

theorem decodeGWList_encode (l : List IPAddr) :
    decodeGWList (l.map IPStr.valid) = .ok l := by
  induction l with
  | nil => rfl
  | cons x xs ih => simp [decodeGWList, parseIPgo, ih]

theorem decodeRoute_encode (r : PodRoute) (h : RouteOK r) :
    decodeRoute (encodeRouteWire r) = .ok r := by
  obtain ⟨hs, hw, hm, hf⟩ := h
  rcases r with ⟨⟨dip, dpfx⟩, nh⟩
  simp only at hs hw hm hf
  rcases nh with _ | nh
  · simp [decodeRoute, encodeRouteWire, cidrToStr, nhToStr, parseCIDR, hw, hm, hs]
  · simp only [nhFamilyOK, decide_eq_true_eq] at hf
    simp [decodeRoute, encodeRouteWire, cidrToStr, nhToStr, parseCIDR, parseIPgo, hw, hm, hs, hf]

theorem decodeRouteList_encode (l : List PodRoute) (h : ∀ r ∈ l, RouteOK r) :
    decodeRouteList (l.map encodeRouteWire) = .ok l := by
  induction l with
  | nil => rfl
  | cons x xs ih =>
    have hx := decodeRoute_encode x (h x (by simp))
    have hxs : ∀ r ∈ xs, RouteOK r := fun r hr => h r (by simp [hr])
    simp [decodeRouteList, hx, ih hxs]

theorem marshalRoutes_encode (l : List PodRoute)
    (h : ∀ r ∈ l, r.Dest.ip.isUnspecified = false) :
    marshalRoutes l = .ok (l.map encodeRouteWire) := by
  induction l with
  | nil => rfl
  | cons x xs ih =>
    have hx : x.Dest.ip.isUnspecified = false := h x (by simp)
    have hxs : ∀ r ∈ xs, r.Dest.ip.isUnspecified = false := fun r hr => h r (by simp [hr])
    simp [marshalRoutes, hx, ih hxs]

theorem marshalRoutes_err (l : List PodRoute)
    (h : ∃ r ∈ l, r.Dest.ip.isUnspecified = true) :
    marshalRoutes l = .error .defaultRouteAsGw := by
  induction l with
  | nil => simp at h
  | cons x xs ih =>
    by_cases hx : x.Dest.ip.isUnspecified = true
    · simp [marshalRoutes, hx]
    · have hxs : ∃ r ∈ xs, r.Dest.ip.isUnspecified = true := by
        rcases h with ⟨r, hr, hru⟩
        rcases List.mem_cons.mp hr with rfl | hrx
        · exact absurd hru hx
        · exact ⟨r, hrx, hru⟩
      simp [marshalRoutes, hx, ih hxs]

theorem resolvePlural_err (l : List CIDRStr) (s : CIDRStr) (e : PodAnnErr)
    (h : resolvePlural l s = .error e) : e = .noIPs ∨ e = .ipConflict := by
  cases l with
  | nil =>
    simp only [resolvePlural] at h
    split at h
    · exact Or.inl (Except.error.inj h).symm
    · exact absurd h (by simp)
  | cons x xs =>
    simp only [resolvePlural] at h
    split at h
    · exact Or.inr (Except.error.inj h).symm
    · exact absurd h (by simp)

theorem resolveGateways_err (l : List IPStr) (s : IPStr) (e : PodAnnErr)
    (h : resolveGateways l s = .error e) : e = .gwConflict := by
  cases l with
  | nil =>
    simp only [resolveGateways] at h
    split at h <;> exact absurd h (by simp)
  | cons x xs =>
    simp only [resolveGateways] at h
    split at h
    · exact (Except.error.inj h).symm
    · exact absurd h (by simp)

theorem decodeIPList_err (l : List CIDRStr) (e : PodAnnErr)
    (h : decodeIPList l = .error e) : e = .badIP := by
  induction l with
  | nil => simp [decodeIPList] at h
  | cons x xs ih =>
    unfold decodeIPList at h
    cases hx : parseCIDR x with
    | none =>
      simp only [hx] at h
      exact (Except.error.inj h).symm
    | some v =>
      simp only [hx] at h
      cases hr : decodeIPList xs with
      | error e1 =>
        simp only [hr] at h
        obtain rfl := Except.error.inj h
        exact ih hr
      | ok tl =>
        simp only [hr] at h
        exact absurd h (by simp)

theorem decodeGWList_err (l : List IPStr) (e : PodAnnErr)
    (h : decodeGWList l = .error e) : e = .badGateway := by
  induction l with
  | nil => simp [decodeGWList] at h
  | cons x xs ih =>
    unfold decodeGWList at h
    cases hx : parseIPgo x with
    | none =>
      simp only [hx] at h
      exact (Except.error.inj h).symm
    | some v =>
      simp only [hx] at h
      cases hr : decodeGWList xs with
      | error e1 =>
        simp only [hr] at h
        obtain rfl := Except.error.inj h
        exact ih hr
      | ok tl =>
        simp only [hr] at h
        exact absurd h (by simp)

theorem decodeRoute_err_cases (r : PodRouteWire) (e : PodAnnErr)
    (h : decodeRoute r = .error e) :
    e = .badRouteDest ∨ e = .defaultRouteAsGw ∨ e = .badNextHop ∨ e = .nextHopFamilyMismatch := by
  unfold decodeRoute at h
  cases hd : parseCIDR r.dest with
  | none =>
    simp only [hd] at h
    exact Or.inl (Except.error.inj h).symm
  | some v =>
    simp only [hd] at h
    split at h
    · exact Or.inr (Or.inl (Except.error.inj h).symm)
    · cases hnh : r.nextHop with
      | empty =>
        simp only [hnh] at h
        exact absurd h (by simp)
      | valid nh =>
        simp only [hnh, parseIPgo] at h
        split at h
        · exact Or.inr (Or.inr (Or.inr (Except.error.inj h).symm))
        · exact absurd h (by simp)
      | garbage =>
        simp only [hnh, parseIPgo] at h
        exact Or.inr (Or.inr (Or.inl (Except.error.inj h).symm))

theorem decodeRouteList_err_inv (l : List PodRouteWire) (e : PodAnnErr)
    (h : decodeRouteList l = .error e) : e.isInvalidConfig = true := by
  induction l with
  | nil => simp [decodeRouteList] at h
  | cons x xs ih =>
    unfold decodeRouteList at h
    cases hx : decodeRoute x with
    | error e1 =>
      simp only [hx] at h
      obtain rfl := Except.error.inj h
      rcases decodeRoute_err_cases x e1 hx with rfl | rfl | rfl | rfl <;> rfl
    | ok v =>
      simp only [hx] at h
      cases hr : decodeRouteList xs with
      | error e1 =>
        simp only [hr] at h
        obtain rfl := Except.error.inj h
        exact ih hr
      | ok tl =>
        simp only [hr] at h
        exact absurd h (by simp)

theorem decodeRecord_err_inv (a : WireRecord) (e : PodAnnErr)
    (h : decodeRecord a = .error e) : e.isInvalidConfig = true := by
  unfold decodeRecord at h
  cases hmac : parseMACgo a.mac with
  | none =>
    simp only [hmac] at h
    obtain rfl := Except.error.inj h
    rfl
  | some mac =>
    simp only [hmac] at h
    cases hips : resolvePlural a.ips a.ip with
    | error e1 =>
      simp only [hips] at h
      obtain rfl := Except.error.inj h
      rcases resolvePlural_err a.ips a.ip e1 hips with rfl | rfl <;> rfl
    | ok ipstrs =>
      simp only [hips] at h
      cases hipl : decodeIPList ipstrs with
      | error e1 =>
        simp only [hipl] at h
        obtain rfl := Except.error.inj h
        rw [decodeIPList_err ipstrs e1 hipl]
        rfl
      | ok ips =>
        simp only [hipl] at h
        cases hgws : resolveGateways a.gateways a.gateway with
        | error e1 =>
          simp only [hgws] at h
          obtain rfl := Except.error.inj h
          rw [resolveGateways_err a.gateways a.gateway e1 hgws]
          rfl
        | ok gwstrs =>
          simp only [hgws] at h
          cases hgwl : decodeGWList gwstrs with
          | error e1 =>
            simp only [hgwl] at h
            obtain rfl := Except.error.inj h
            rw [decodeGWList_err gwstrs e1 hgwl]
            rfl
          | ok gws =>
            simp only [hgwl] at h
            cases hrt : decodeRouteList a.routes with
            | error e1 =>
              simp only [hrt] at h
              obtain rfl := Except.error.inj h
              exact decodeRouteList_err_inv a.routes e1 hrt
            | ok routes =>
              simp only [hrt] at h
              exact absurd h (by simp)

theorem decodeRecord_ok_elim (a : WireRecord) (pa : PodAnn)
    (h : decodeRecord a = .ok pa) :
    (∃ mac, parseMACgo a.mac = some mac ∧ pa.MAC = mac) ∧
    (∃ l1, resolvePlural a.ips a.ip = .ok l1 ∧ decodeIPList l1 = .ok pa.IPs) ∧
    (∃ l2, resolveGateways a.gateways a.gateway = .ok l2 ∧ decodeGWList l2 = .ok pa.Gateways) ∧
    decodeRouteList a.routes = .ok pa.Routes := by
  unfold decodeRecord at h
  cases hmac : parseMACgo a.mac with
  | none => simp only [hmac] at h; exact absurd h (by simp)
  | some mac =>
    simp only [hmac] at h
    cases hips : resolvePlural a.ips a.ip with
    | error e1 => simp only [hips] at h; exact absurd h (by simp)
    | ok ipstrs =>
      simp only [hips] at h
      cases hipl : decodeIPList ipstrs with
      | error e1 => simp only [hipl] at h; exact absurd h (by simp)
      | ok ips =>
        simp only [hipl] at h
        cases hgws : resolveGateways a.gateways a.gateway with
        | error e1 => simp only [hgws] at h; exact absurd h (by simp)
        | ok gwstrs =>
          simp only [hgws] at h
          cases hgwl : decodeGWList gwstrs with
          | error e1 => simp only [hgwl] at h; exact absurd h (by simp)
          | ok gws =>
            simp only [hgwl] at h
            cases hrt : decodeRouteList a.routes with
            | error e1 => simp only [hrt] at h; exact absurd h (by simp)
            | ok routes =>
              simp only [hrt] at h
              obtain rfl := (Except.ok.inj h).symm
              exact ⟨⟨mac, rfl, rfl⟩, ⟨ipstrs, rfl, hipl⟩, ⟨gwstrs, rfl, hgwl⟩, rfl⟩

theorem decodeIPList_len (l : List CIDRStr) (out : List IPNet)
    (h : decodeIPList l = .ok out) : out.length = l.length := by
  induction l generalizing out with
  | nil =>
    simp only [decodeIPList] at h
    obtain rfl := (Except.ok.inj h).symm
    rfl
  | cons x xs ih =>
    unfold decodeIPList at h
    cases hx : parseCIDR x with
    | none => simp only [hx] at h; exact absurd h (by simp)
    | some v =>
      simp only [hx] at h
      cases hr : decodeIPList xs with
      | error e1 => simp only [hr] at h; exact absurd h (by simp)
      | ok tl =>
        simp only [hr] at h
        obtain rfl := (Except.ok.inj h).symm
        simp [ih tl hr]

theorem resolvePlural_ok_ne_nil (l : List CIDRStr) (s : CIDRStr) (out : List CIDRStr)
    (h : resolvePlural l s = .ok out) : out ≠ [] := by
  cases l with
  | nil =>
    simp only [resolvePlural] at h
    split at h
    · exact absurd h (by simp)
    · obtain rfl := (Except.ok.inj h).symm
      simp
  | cons x xs =>
    simp only [resolvePlural] at h
    split at h
    · exact absurd h (by simp)
    · obtain rfl := (Except.ok.inj h).symm
      simp

theorem decodeRouteList_ok_all (l : List PodRouteWire) (out : List PodRoute)
    (h : decodeRouteList l = .ok out) :
    ∀ rw ∈ l, ∃ r, decodeRoute rw = .ok r := by
  induction l generalizing out with
  | nil => intro rw hrw; simp at hrw
  | cons x xs ih =>
    intro rw hrw
    unfold decodeRouteList at h
    cases hx : decodeRoute x with
    | error e1 => simp only [hx] at h; exact absurd h (by simp)
    | ok v =>
      simp only [hx] at h
      cases hr : decodeRouteList xs with
      | error e1 => simp only [hr] at h; exact absurd h (by simp)
      | ok tl =>
        rcases List.mem_cons.mp hrw with rfl | hrx
        · exact ⟨v, hx⟩
        · exact ih tl hr rw hrx

theorem marshal_decode_ok (p : PodAnn) (h : ValidPodAnn p) :
    ∃ w : WireRecord,
      marshalPodAnn p = .ok (.parsed [(defaultNetKey, w)]) ∧ decodeRecord w = .ok p := by
  obtain ⟨IPs, MAC, Gws, Rts⟩ := p
  unfold ValidPodAnn at h
  obtain ⟨hne, hmacl, hwid, hgw1, hrts⟩ := h
  dsimp only at hne hmacl hwid hgw1 hrts
  have hmac : parseMACgo (macToStr MAC) = some MAC := by
    unfold MACOK at hmacl
    simp only [macToStr]
    rw [if_pos hmacl]
    rfl
  have hunsp : ∀ r ∈ Rts, r.Dest.ip.isUnspecified = false := fun r hr => (hrts r hr).1
  have hmr : marshalRoutes Rts = .ok (Rts.map encodeRouteWire) :=
    marshalRoutes_encode Rts hunsp
  have hdecIP : decodeIPList (IPs.map cidrToStr) = .ok IPs := decodeIPList_encode IPs hwid
  have hdecGW : decodeGWList (Gws.map IPStr.valid) = .ok Gws := decodeGWList_encode Gws
  have hdecRT : decodeRouteList (Rts.map encodeRouteWire) = .ok Rts :=
    decodeRouteList_encode Rts hrts
  obtain ⟨sIP, sGw, hsing, hresIP, hresGW⟩ :
      ∃ sIP sGw,
        marshalSingulars { IPs := IPs, MAC := MAC, Gateways := Gws, Routes := Rts } = .ok (sIP, sGw) ∧
        resolvePlural (IPs.map cidrToStr) sIP = .ok (IPs.map cidrToStr) ∧
        resolveGateways (Gws.map IPStr.valid) sGw = .ok (Gws.map IPStr.valid) := by
    rcases IPs with _ | ⟨n, ns⟩
    · exact absurd rfl hne
    · rcases ns with _ | ⟨n2, ns2⟩
      · have hg1 : Gws.length ≤ 1 := hgw1 rfl
        rcases Gws with _ | ⟨g, gs⟩
        · exact ⟨cidrToStr n, .empty, by simp [marshalSingulars],
            by simp [resolvePlural], by simp [resolveGateways]⟩
        · rcases gs with _ | ⟨g2, gs2⟩
          · exact ⟨cidrToStr n, .valid g, by simp [marshalSingulars],
              by simp [resolvePlural], by simp [resolveGateways]⟩
          · simp at hg1
      · refine ⟨.empty, .empty, by simp [marshalSingulars], by simp [resolvePlural], ?_⟩
        rcases Gws with _ | ⟨g, gs⟩
        · simp [resolveGateways]
        · simp [resolveGateways]
  refine ⟨{ ips := IPs.map cidrToStr, mac := macToStr MAC, gateways := Gws.map IPStr.valid,
            routes := Rts.map encodeRouteWire, ip := sIP, gateway := sGw }, ?_, ?_⟩
  · simp [marshalPodAnn, hsing, hmr]
  · simp [decodeRecord, hmac, hresIP, hdecIP, hresGW, hdecGW, hdecRT]

theorem marshal_unmarshal_ok (p : PodAnn) (h : ValidPodAnn p) :
    ∃ v : AnnValue, marshalPodAnn p = .ok v ∧ unmarshalPodAnn v = .ok p := by
  obtain ⟨w, hm, hd⟩ := marshal_decode_ok p h
  refine ⟨_, hm, ?_⟩
  simp [unmarshalPodAnn, List.lookup, hd]

theorem marshalSingulars_err (p : PodAnn) (h1 : p.IPs.length = 1)
    (h2 : p.Gateways.length > 1) :
    marshalSingulars p = .error .singleStackMultipleGateways := by
  obtain ⟨IPs, MAC, Gws, Rts⟩ := p
  dsimp only at h1 h2
  rcases IPs with _ | ⟨n, ns⟩
  · simp at h1
  · rcases ns with _ | ⟨n2, ns2⟩
    · rcases Gws with _ | ⟨g, gs⟩
      · simp at h2
      · rcases gs with _ | ⟨g2, gs2⟩
        · simp at h2
        · rfl
    · simp at h1

theorem marshalSingulars_ok (p : PodAnn)
    (h : ¬(p.IPs.length = 1 ∧ p.Gateways.length > 1)) :
    ∃ s, marshalSingulars p = .ok s := by
  obtain ⟨IPs, MAC, Gws, Rts⟩ := p
  dsimp only at h
  rcases IPs with _ | ⟨n, ns⟩
  · exact ⟨(.empty, .empty), rfl⟩
  · rcases ns with _ | ⟨n2, ns2⟩
    · rcases Gws with _ | ⟨g, gs⟩
      · exact ⟨(cidrToStr n, .empty), rfl⟩
      · rcases gs with _ | ⟨g2, gs2⟩
        · exact ⟨(cidrToStr n, .valid g), rfl⟩
        · exact absurd ⟨rfl, by simp⟩ h
    · exact ⟨(.empty, .empty), rfl⟩

theorem marshalRoutes_ok_all (l : List PodRoute) (out : List PodRouteWire)
    (h : marshalRoutes l = .ok out) :
    ∀ r ∈ l, r.Dest.ip.isUnspecified = false := by
  intro r hr
  by_contra hc
  have hru : r.Dest.ip.isUnspecified = true := by
    cases hb : r.Dest.ip.isUnspecified
    · exact absurd hb hc
    · rfl
  rw [marshalRoutes_err l ⟨r, hr, hru⟩] at h
  exact absurd h (by simp)

theorem marshalPodAnn_ok_iff (p : PodAnn) :
    (∃ v, marshalPodAnn p = .ok v) ↔
      (¬(p.IPs.length = 1 ∧ p.Gateways.length > 1) ∧
       ∀ r ∈ p.Routes, r.Dest.ip.isUnspecified = false) := by
  constructor
  · rintro ⟨v, hv⟩
    unfold marshalPodAnn at hv
    cases hs : marshalSingulars p with
    | error e => simp only [hs] at hv; exact absurd hv (by simp)
    | ok s =>
      simp only [hs] at hv
      cases hmr : marshalRoutes p.Routes with
      | error e => simp only [hmr] at hv; exact absurd hv (by simp)
      | ok rts =>
        constructor
        · rintro ⟨h1, h2⟩
          rw [marshalSingulars_err p h1 h2] at hs
          exact absurd hs (by simp)
        · exact marshalRoutes_ok_all p.Routes rts hmr
  · rintro ⟨h1, h2⟩
    obtain ⟨s, hs⟩ := marshalSingulars_ok p h1
    refine ⟨.parsed [(defaultNetKey,
      { ips := p.IPs.map cidrToStr, mac := macToStr p.MAC,
        gateways := p.Gateways.map IPStr.valid, routes := p.Routes.map encodeRouteWire,
        ip := s.1, gateway := s.2 })], ?_⟩
    simp [marshalPodAnn, hs, marshalRoutes_encode p.Routes h2]

theorem marshalSingulars_fields (p : PodAnn) (sIP : CIDRStr) (sGw : IPStr)
    (h : marshalSingulars p = .ok (sIP, sGw)) :
    (sIP ≠ .empty ↔ p.IPs.length = 1) ∧
    (sGw ≠ .empty ↔ (p.IPs.length = 1 ∧ p.Gateways.length = 1)) := by
  obtain ⟨IPs, MAC, Gws, Rts⟩ := p
  rcases IPs with _ | ⟨n, ns⟩
  · simp only [marshalSingulars] at h
    obtain ⟨rfl, rfl⟩ : CIDRStr.empty = sIP ∧ IPStr.empty = sGw := by
      have := Except.ok.inj h
      exact ⟨congrArg Prod.fst this, congrArg Prod.snd this⟩
    simp
  · rcases ns with _ | ⟨n2, ns2⟩
    · rcases Gws with _ | ⟨g, gs⟩
      · simp only [marshalSingulars] at h
        obtain ⟨rfl, rfl⟩ : cidrToStr n = sIP ∧ IPStr.empty = sGw := by
          have := Except.ok.inj h
          exact ⟨congrArg Prod.fst this, congrArg Prod.snd this⟩
        simp [cidrToStr]
      · rcases gs with _ | ⟨g2, gs2⟩
        · simp only [marshalSingulars] at h
          obtain ⟨rfl, rfl⟩ : cidrToStr n = sIP ∧ IPStr.valid g = sGw := by
            have := Except.ok.inj h
            exact ⟨congrArg Prod.fst this, congrArg Prod.snd this⟩
          simp [cidrToStr]
        · simp only [marshalSingulars] at h
          exact absurd h (by simp)
    · simp only [marshalSingulars] at h
      obtain ⟨rfl, rfl⟩ : CIDRStr.empty = sIP ∧ IPStr.empty = sGw := by
        have := Except.ok.inj h
        exact ⟨congrArg Prod.fst this, congrArg Prod.snd this⟩
      simp

theorem marshalPodAnn_ok_sing (p : PodAnn) (w : WireRecord)
    (h : marshalPodAnn p = .ok (.parsed [(defaultNetKey, w)])) :
    marshalSingulars p = .ok (w.ip, w.gateway) := by
  unfold marshalPodAnn at h
  cases hs : marshalSingulars p with
  | error e => simp only [hs] at h; exact absurd h (by simp)
  | ok s =>
    simp only [hs] at h
    cases hmr : marshalRoutes p.Routes with
    | error e => simp only [hmr] at h; exact absurd h (by simp)
    | ok rts =>
      simp only [hmr, Except.ok.injEq, AnnValue.parsed.injEq, List.cons.injEq,
        Prod.mk.injEq, and_true, true_and] at h
      subst h
      rcases s with ⟨s1, s2⟩
      rfl

theorem unmarshal_ok_IPs_ne_nil (v : AnnValue) (ann : PodAnn)
    (h : unmarshalPodAnn v = .ok ann) : ann.IPs ≠ [] := by
  cases v with
  | absent => exact absurd h (by simp [unmarshalPodAnn])
  | malformed => exact absurd h (by simp [unmarshalPodAnn])
  | parsed nets =>
    simp only [unmarshalPodAnn] at h
    obtain ⟨-, ⟨l1, hres, hdec⟩, -, -⟩ := decodeRecord_ok_elim _ ann h
    have hlen := decodeIPList_len l1 ann.IPs hdec
    have hne := resolvePlural_ok_ne_nil _ _ l1 hres
    intro hnil
    rw [hnil] at hlen
    exact hne (List.eq_nil_of_length_eq_zero hlen.symm)

theorem marshalSingulars_err_cases (p : PodAnn) (e : PodAnnErr)
    (h : marshalSingulars p = .error e) : e = .singleStackMultipleGateways := by
  obtain ⟨IPs, MAC, Gws, Rts⟩ := p
  rcases IPs with _ | ⟨n, ns⟩
  · simp only [marshalSingulars] at h
    exact absurd h (by simp)
  · rcases ns with _ | ⟨n2, ns2⟩
    · rcases Gws with _ | ⟨g, gs⟩
      · simp only [marshalSingulars] at h
        exact absurd h (by simp)
      · rcases gs with _ | ⟨g2, gs2⟩
        · simp only [marshalSingulars] at h
          exact absurd h (by simp)
        · simp only [marshalSingulars] at h
          exact (Except.error.inj h).symm
    · simp only [marshalSingulars] at h
      exact absurd h (by simp)

/-- C1 counterexample: a pod whose platform status reports 10.0.0.1 and
whose pod-networks record is present and valid with the address
10.0.0.2/24.  GetAllPodIPs returns the status address, not the
annotated one, refuting the claimed annotation-first priority order and
the claim that annotation IPs are returned whenever the record is
present and valid. -/
theorem getAllPodIPs_cex :
    unmarshalPodAnn podC1.annotations =
      .ok { IPs := [{ ip := .v4 167772162, pfx := 24 }], MAC := [1, 2, 3, 4, 5, 6],
            Gateways := [], Routes := [] } ∧
    GetAllPodIPs podC1 = .ok [.v4 167772161] ∧
    (IPAddr.v4 167772161) ≠ (IPAddr.v4 167772162) :=
  ⟨rfl, rfl, by decide⟩

/-- C1: (corrected) GetAllPodIPs consults the platform-reported status
addresses first; the pod-network annotation's IPs are returned exactly
when the annotation is present and valid and no status address parses,
and the legacy single-address field is consulted only after both. -/
theorem getAllPodIPs_priority (pod : Pod) (ann : PodAnn)
    (h : unmarshalPodAnn pod.annotations = .ok ann) :
    GetAllPodIPs pod =
      .ok (if pod.statusPodIPs.filterMap parseIPgo = [] then ann.IPs.map IPNet.ip
           else pod.statusPodIPs.filterMap parseIPgo) := by
  have hne : ann.IPs ≠ [] := unmarshal_ok_IPs_ne_nil _ _ h
  unfold GetAllPodIPs
  cases hst : pod.statusPodIPs.filterMap parseIPgo with
  | nil =>
    simp only [h]
    cases hann : ann.IPs.map IPNet.ip with
    | nil => exact absurd (List.map_eq_nil_iff.mp hann) hne
    | cons y ys => simp [hann]
  | cons x xs => simp

/-- Witness for getAllPodIPs_priority at a pod with no status addresses
and a valid record holding 10.0.0.2/24. -/
theorem getAllPodIPs_priority_witness :
    GetAllPodIPs podC1w =
      .ok (if podC1w.statusPodIPs.filterMap parseIPgo = []
           then ({ IPs := [{ ip := .v4 167772162, pfx := 24 }], MAC := [1, 2, 3, 4, 5, 6],
                   Gateways := [], Routes := [] } : PodAnn).IPs.map IPNet.ip
           else podC1w.statusPodIPs.filterMap parseIPgo) :=
  getAllPodIPs_priority podC1w _ (by rfl)

/-- C2 counterexample: podC2 satisfies every validity condition named
by the claim (length-6 MAC, no unspecified route destination, no next
hop, one IP with no gateways), yet marshalling and unmarshalling it
returns podC2dec, whose route destination has been masked from
10.0.0.1/24 to 10.0.0.0/24 — not the original value. -/
theorem podAnn_roundtrip_cex :
    MACOK podC2.MAC ∧
    (∀ r ∈ podC2.Routes, r.Dest.ip.isUnspecified = false ∧ nhFamilyOK r = true) ∧
    (podC2.IPs.length = 1 → podC2.Gateways.length ≤ 1) ∧
    podC2.IPs ≠ [] ∧
    marshalPodAnn podC2 = .ok (.parsed [(defaultNetKey,
      { ips := [.valid (.v4 5) 24], mac := .valid [1, 2, 3, 4, 5, 6], gateways := [],
        routes := [{ dest := .valid (.v4 167772161) 24, nextHop := .empty }],
        ip := .valid (.v4 5) 24, gateway := .empty })]) ∧
    unmarshalPodAnn (.parsed [(defaultNetKey,
      { ips := [.valid (.v4 5) 24], mac := .valid [1, 2, 3, 4, 5, 6], gateways := [],
        routes := [{ dest := .valid (.v4 167772161) 24, nextHop := .empty }],
        ip := .valid (.v4 5) 24, gateway := .empty })]) = .ok podC2dec ∧
    podC2dec ≠ podC2 :=
  ⟨by decide, by decide, by decide, by decide, by rfl, by rfl, by decide⟩

/-- C2: (corrected) for every PodAnnotation that is valid in the
claim's sense and whose route destinations are in addition masked
network addresses with prefixes within the family width, encode
followed by decode returns the original value. -/
theorem podAnn_roundtrip (p : PodAnn) (h : ValidPodAnn p) :
    ∃ v : AnnValue, marshalPodAnn p = .ok v ∧ unmarshalPodAnn v = .ok p :=
  marshal_unmarshal_ok p h

/-- Witness for podAnn_roundtrip at a concrete valid annotation with
one IP, one gateway and one masked route. -/
theorem podAnn_roundtrip_witness :
    ∃ v : AnnValue,
      marshalPodAnn
        { IPs := [{ ip := .v4 5, pfx := 24 }], MAC := [1, 2, 3, 4, 5, 6],
          Gateways := [.v4 1],
          Routes := [{ Dest := { ip := .v4 167772160, pfx := 24 }, NextHop := some (.v4 9) }] } =
        .ok v ∧
      unmarshalPodAnn v =
        .ok { IPs := [{ ip := .v4 5, pfx := 24 }], MAC := [1, 2, 3, 4, 5, 6],
              Gateways := [.v4 1],
              Routes := [{ Dest := { ip := .v4 167772160, pfx := 24 }, NextHop := some (.v4 9) }] } :=
  podAnn_roundtrip _ (by decide)

/-- C3 counterexample: podC3 has exactly one gateway, and encoding
succeeds, yet the emitted record's singular gateway_ip field is empty
(because there are two IPs): the singular gateway field is not
populated exactly when there is one gateway. -/
theorem marshal_singular_cex :
    podC3.Gateways.length = 1 ∧
    marshalPodAnn podC3 = .ok (.parsed [(defaultNetKey,
      { ips := [.valid (.v4 1) 24, .valid (.v6 1) 64], mac := .valid [1, 2, 3, 4, 5, 6],
        gateways := [.valid (.v4 3)], routes := [], ip := .empty, gateway := .empty })]) :=
  ⟨rfl, rfl⟩

/-- C3: (corrected) on a successful encode the singular ip_address is
populated exactly when there is one IP, and the singular gateway_ip
exactly when there is one IP and one gateway; and a single-IP input
with more than one gateway fails with the single-stack
invalid-configuration error. -/
theorem marshal_singular_fields (p : PodAnn) :
    (p.IPs.length = 1 → p.Gateways.length > 1 →
      marshalPodAnn p = .error .singleStackMultipleGateways) ∧
    (∀ w : WireRecord, marshalPodAnn p = .ok (.parsed [(defaultNetKey, w)]) →
      ((w.ip ≠ .empty ↔ p.IPs.length = 1) ∧
       (w.gateway ≠ .empty ↔ (p.IPs.length = 1 ∧ p.Gateways.length = 1)))) := by
  constructor
  · intro h1 h2
    simp [marshalPodAnn, marshalSingulars_err p h1 h2]
  · intro w hw
    exact marshalSingulars_fields p w.ip w.gateway (marshalPodAnn_ok_sing p w hw)

/-- Witness for marshal_singular_fields: the error branch at one IP
with two gateways, and the singular-field equivalences at podC3. -/
theorem marshal_singular_fields_witness :
    marshalPodAnn { IPs := [{ ip := .v4 1, pfx := 24 }], MAC := [1, 2, 3, 4, 5, 6],
                    Gateways := [.v4 1, .v4 2], Routes := [] } =
      .error .singleStackMultipleGateways ∧
    (((CIDRStr.empty : CIDRStr) ≠ .empty ↔ podC3.IPs.length = 1) ∧
     ((IPStr.empty : IPStr) ≠ .empty ↔ (podC3.IPs.length = 1 ∧ podC3.Gateways.length = 1))) :=
  ⟨(marshal_singular_fields _).1 (by decide) (by decide),
   (marshal_singular_fields podC3).2
     { ips := [.valid (.v4 1) 24, .valid (.v6 1) 64], mac := .valid [1, 2, 3, 4, 5, 6],
       gateways := [.valid (.v4 3)], routes := [], ip := .empty, gateway := .empty }
     (by rfl)⟩

/-- C4: a wire record in which the singular ip_address (respectively
gateway_ip) is present and disagrees with the first entry of the plural
list fails to decode with an invalid-configuration error. -/
theorem decode_conflict_rejection (a : WireRecord)
    (h : (a.ip ≠ .empty ∧ ∃ x xs, a.ips = x :: xs ∧ a.ip ≠ x) ∨
         (a.gateway ≠ .empty ∧ ∃ x xs, a.gateways = x :: xs ∧ a.gateway ≠ x)) :
    ∃ e, decodeRecord a = .error e ∧ e.isInvalidConfig = true := by
  cases hd : decodeRecord a with
  | error e => exact ⟨e, rfl, decodeRecord_err_inv a e hd⟩
  | ok pa =>
    exfalso
    obtain ⟨-, ⟨l1, hres, -⟩, ⟨l2, hgres, -⟩, -⟩ := decodeRecord_ok_elim a pa hd
    rcases h with ⟨hne, x, xs, hips, hnx⟩ | ⟨hne, x, xs, hgws, hnx⟩
    · rw [hips] at hres
      simp only [resolvePlural] at hres
      rw [if_pos ⟨hne, hnx⟩] at hres
      exact absurd hres (by simp)
    · rw [hgws] at hgres
      simp only [resolveGateways] at hgres
      rw [if_pos ⟨hne, hnx⟩] at hgres
      exact absurd hgres (by simp)

/-- Witness for decode_conflict_rejection: the record recC4 with
ip_address 10.0.0.1/24 and ip_addresses [10.0.0.2/24], which fails with
the ip-conflict error, also at the whole-annotation level. -/
theorem decode_conflict_rejection_witness :
    decodeRecord recC4 = .error .ipConflict ∧
    unmarshalPodAnn (.parsed [(defaultNetKey, recC4)]) = .error .ipConflict ∧
    (∃ e, decodeRecord recC4 = .error e ∧ e.isInvalidConfig = true) :=
  ⟨by rfl, by rfl, decode_conflict_rejection recC4 (Or.inl ⟨by decide, _, _, rfl, by decide⟩)⟩

/-- C5: a route with an unspecified (all-zero) destination is rejected
with an invalid-configuration error by the encoder (with the
default-routes-belong-in-gateways error whenever the earlier
single-stack check does not fire first) and by the decoder; and the
same annotation with the default expressed as a gateway instead
succeeds on both paths. -/
theorem default_route_rejection :
    (∀ p : PodAnn, (∃ r ∈ p.Routes, r.Dest.ip.isUnspecified = true) →
      ∃ e, marshalPodAnn p = .error e ∧ e.isInvalidConfig = true) ∧
    (∀ p : PodAnn, ¬(p.IPs.length = 1 ∧ p.Gateways.length > 1) →
      (∃ r ∈ p.Routes, r.Dest.ip.isUnspecified = true) →
      marshalPodAnn p = .error .defaultRouteAsGw) ∧
    (∀ rw : PodRouteWire, ∀ ip : IPAddr, ∀ pfx : Nat,
      parseCIDR rw.dest = some (ip, pfx) → (maskIP ip pfx).isUnspecified = true →
      decodeRoute rw = .error .defaultRouteAsGw) ∧
    (∀ a : WireRecord, (∃ rw ∈ a.routes, decodeRoute rw = .error .defaultRouteAsGw) →
      ∃ e, decodeRecord a = .error e ∧ e.isInvalidConfig = true) ∧
    (∀ base : PodAnn, ∀ g : IPAddr, ∀ d : IPNet, d.ip.isUnspecified = true →
      ValidPodAnn { base with Gateways := base.Gateways ++ [g] } →
      marshalPodAnn { base with Routes := base.Routes ++ [{ Dest := d, NextHop := some g }] } =
        .error .defaultRouteAsGw ∧
      ∃ v, marshalPodAnn { base with Gateways := base.Gateways ++ [g] } = .ok v ∧
           unmarshalPodAnn v = .ok { base with Gateways := base.Gateways ++ [g] }) := by
  have part2 : ∀ p : PodAnn, ¬(p.IPs.length = 1 ∧ p.Gateways.length > 1) →
      (∃ r ∈ p.Routes, r.Dest.ip.isUnspecified = true) →
      marshalPodAnn p = .error .defaultRouteAsGw := by
    intro p h1 h2
    obtain ⟨s, hs⟩ := marshalSingulars_ok p h1
    simp [marshalPodAnn, hs, marshalRoutes_err p.Routes h2]
  refine ⟨?_, part2, ?_, ?_, ?_⟩
  · intro p h2
    cases hs : marshalSingulars p with
    | error e =>
      obtain rfl := marshalSingulars_err_cases p e hs
      exact ⟨.singleStackMultipleGateways, by simp [marshalPodAnn, hs], rfl⟩
    | ok s =>
      exact ⟨.defaultRouteAsGw, by simp [marshalPodAnn, hs, marshalRoutes_err p.Routes h2], rfl⟩
  · intro rw ip pfx hparse hmask
    simp [decodeRoute, hparse, hmask]
  · intro a hbad
    cases hd : decodeRecord a with
    | error e => exact ⟨e, rfl, decodeRecord_err_inv a e hd⟩
    | ok pa =>
      exfalso
      obtain ⟨-, -, -, hrts⟩ := decodeRecord_ok_elim a pa hd
      obtain ⟨rw, hmem, herr⟩ := hbad
      obtain ⟨r, hr⟩ := decodeRouteList_ok_all a.routes pa.Routes hrts rw hmem
      rw [herr] at hr
      exact absurd hr (by simp)
  · intro base g d hud hvalid
    have hnot : ¬(base.IPs.length = 1 ∧ base.Gateways.length > 1) := by
      rintro ⟨ha, hb⟩
      have hle := hvalid.2.2.2.1 ha
      rw [List.length_append] at hle
      simp only [List.length_cons, List.length_nil] at hle
      omega
    constructor
    · refine part2 _ hnot ?_
      exact ⟨{ Dest := d, NextHop := some g }, List.mem_append_right _ (by simp), hud⟩
    · exact marshal_unmarshal_ok _ hvalid

/-- Witness for default_route_rejection: a single-IP annotation where
the default route makes the encoder fail, and the gateway version
round-trips on both paths. -/
theorem default_route_rejection_witness :
    marshalPodAnn
        { IPs := [{ ip := .v4 1, pfx := 24 }], MAC := [1, 2, 3, 4, 5, 6],
          Gateways := [],
          Routes := [{ Dest := { ip := .v4 0, pfx := 0 }, NextHop := some (.v4 7) }] } =
      .error .defaultRouteAsGw ∧
    ∃ v, marshalPodAnn
        { IPs := [{ ip := .v4 1, pfx := 24 }], MAC := [1, 2, 3, 4, 5, 6],
          Gateways := [.v4 7], Routes := [] } = .ok v ∧
      unmarshalPodAnn v =
        .ok { IPs := [{ ip := .v4 1, pfx := 24 }], MAC := [1, 2, 3, 4, 5, 6],
              Gateways := [.v4 7], Routes := [] } :=
  default_route_rejection.2.2.2.2
    { IPs := [{ ip := .v4 1, pfx := 24 }], MAC := [1, 2, 3, 4, 5, 6], Gateways := [], Routes := [] }
    (.v4 7) { ip := .v4 0, pfx := 0 } (by decide) (by decide)

/-- C6: for a decoded route with a present, parseable next hop and a
well-formed, specified destination, an address-family mismatch between
next hop and destination makes the route decode fail (and any record
containing such a route fail with an invalid-configuration error),
while matching families make the route decode succeed. -/
theorem nexthop_family_check :
    (∀ rw : PodRouteWire, ∀ ip : IPAddr, ∀ pfx : Nat, ∀ nh : IPAddr,
      parseCIDR rw.dest = some (ip, pfx) → (maskIP ip pfx).isUnspecified = false →
      parseIPgo rw.nextHop = some nh →
      ((nh.isIPv6 ≠ (maskIP ip pfx).isIPv6 → decodeRoute rw = .error .nextHopFamilyMismatch) ∧
       (nh.isIPv6 = (maskIP ip pfx).isIPv6 →
        decodeRoute rw = .ok { Dest := { ip := maskIP ip pfx, pfx := pfx }, NextHop := some nh }))) ∧
    (∀ a : WireRecord, (∃ rw ∈ a.routes, decodeRoute rw = .error .nextHopFamilyMismatch) →
      ∃ e, decodeRecord a = .error e ∧ e.isInvalidConfig = true) := by
  constructor
  · intro rw ip pfx nh hparse hmask hnh
    have hval : rw.nextHop = .valid nh := by
      cases hv : rw.nextHop with
      | empty => rw [hv] at hnh; exact absurd hnh (by simp [parseIPgo])
      | valid nh2 =>
        rw [hv] at hnh
        simp only [parseIPgo, Option.some.injEq] at hnh
        rw [hnh]
      | garbage => rw [hv] at hnh; exact absurd hnh (by simp [parseIPgo])
    constructor
    · intro hmm
      simp [decodeRoute, hparse, hmask, hval, parseIPgo, if_pos hmm]
    · intro hmm
      simp [decodeRoute, hparse, hmask, hval, parseIPgo, hmm]
  · intro a hbad
    cases hd : decodeRecord a with
    | error e => exact ⟨e, rfl, decodeRecord_err_inv a e hd⟩
    | ok pa =>
      exfalso
      obtain ⟨-, -, -, hrts⟩ := decodeRecord_ok_elim a pa hd
      obtain ⟨rw, hmem, herr⟩ := hbad
      obtain ⟨r, hr⟩ := decodeRouteList_ok_all a.routes pa.Routes hrts rw hmem
      rw [herr] at hr
      exact absurd hr (by simp)

/-- Witness for nexthop_family_check: a 10.0.0.0/24 destination with an
IPv6 next hop is rejected, and with an IPv4 next hop is accepted. -/
theorem nexthop_family_check_witness :
    decodeRoute { dest := .valid (.v4 167772160) 24, nextHop := .valid (.v6 5) } =
      .error .nextHopFamilyMismatch ∧
    decodeRoute { dest := .valid (.v4 167772160) 24, nextHop := .valid (.v4 5) } =
      .ok { Dest := { ip := maskIP (.v4 167772160) 24, pfx := 24 }, NextHop := some (.v4 5) } :=
  ⟨(nexthop_family_check.1 _ _ _ _ (by rfl) (by decide) (by rfl)).1 (by decide),
   (nexthop_family_check.1 _ _ _ _ (by rfl) (by decide) (by rfl)).2 (by decide)⟩

/-- C7: an annotation value that parses as the wire format but has no
entry under the default network key decodes exactly as the empty
record does — there is no distinct missing-entry error — and the empty
record fails only on its field requirements, the first being the
required MAC. -/
theorem missing_default_entry (nets : List (String × WireRecord))
    (h : nets.lookup defaultNetKey = none) :
    unmarshalPodAnn (.parsed nets) = decodeRecord emptyWireRecord ∧
    decodeRecord emptyWireRecord = .error .invalidMAC := by
  constructor
  · simp [unmarshalPodAnn, h]
  · rfl

/-- Witness for missing_default_entry at the empty network map. -/
theorem missing_default_entry_witness :
    unmarshalPodAnn (.parsed []) = decodeRecord emptyWireRecord ∧
    decodeRecord emptyWireRecord = .error .invalidMAC :=
  missing_default_entry [] (by rfl)

/-- C8 (spec-modelled): an add or remove event whose address equals,
ignoring prefix length, a management-port or masquerade address is not
publishable; it is ignored by the event handler, and adding then
removing it leaves the published node address annotation unchanged, as
does each event at the reconciler-step level. -/
theorem excluded_addr_events_noop (cfg : AddrMgrConfig) (s : List IPAddr) (a : IPNet)
    (st : MgrState)
    (h : a.ip = cfg.mgmtV4.ip ∨ a.ip = cfg.mgmtV6.ip ∨ a.ip = cfg.masqV4 ∨ a.ip = cfg.masqV6) :
    IsPublishable cfg a = false ∧
    applyAddrEvent cfg s (.add a) = s ∧
    applyAddrEvent cfg (applyAddrEvent cfg s (.add a)) (.remove a) = s ∧
    (mgrStep cfg st (.addr (.add a))).published = st.published ∧
    (mgrStep cfg st (.addr (.remove a))).published = st.published := by
  have hpub : IsPublishable cfg a = false := by
    simp [IsPublishable]
    tauto
  have hadd : applyAddrEvent cfg s (.add a) = s := by
    simp [applyAddrEvent, hpub]
  have hrem : ∀ t : List IPAddr, applyAddrEvent cfg t (.remove a) = t := by
    intro t
    simp [applyAddrEvent, hpub]
  have hstep : ∀ e : AddrEvent, (∀ t : List IPAddr, applyAddrEvent cfg t e = t) →
      (mgrStep cfg st (.addr e)).published = st.published := by
    intro e he
    by_cases hst : st.stopped = true
    · simp [mgrStep, hst]
    · by_cases hsub : st.subscribed = true
      · simp [mgrStep, hst, hsub, he]
      · simp [mgrStep, hst, hsub]
  refine ⟨hpub, hadd, by rw [hadd]; exact hrem s, ?_, ?_⟩
  · exact hstep (.add a) (fun t => by simp [applyAddrEvent, hpub])
  · exact hstep (.remove a) (fun t => by simp [applyAddrEvent, hpub])

/-- Witness for excluded_addr_events_noop: the management-port address
11 with a different prefix length, against a one-element address set
and a running subscribed reconciler state. -/
theorem excluded_addr_events_noop_witness :
    IsPublishable cfgW { ip := .v4 11, pfx := 16 } = false ∧
    applyAddrEvent cfgW [.v4 99] (.add { ip := .v4 11, pfx := 16 }) = [.v4 99] ∧
    applyAddrEvent cfgW (applyAddrEvent cfgW [.v4 99] (.add { ip := .v4 11, pfx := 16 }))
        (.remove { ip := .v4 11, pfx := 16 }) = [.v4 99] ∧
    (mgrStep cfgW { stopped := false, subscribed := true, published := [.v4 99] }
        (.addr (.add { ip := .v4 11, pfx := 16 }))).published =
      MgrState.published { stopped := false, subscribed := true, published := [.v4 99] } ∧
    (mgrStep cfgW { stopped := false, subscribed := true, published := [.v4 99] }
        (.addr (.remove { ip := .v4 11, pfx := 16 }))).published =
      MgrState.published { stopped := false, subscribed := true, published := [.v4 99] } :=
  excluded_addr_events_noop cfgW [.v4 99] { ip := .v4 11, pfx := 16 }
    { stopped := false, subscribed := true, published := [.v4 99] } (Or.inl (by decide))

/-- C9 (spec-modelled): if the event subscription closes while the stop
signal has not fired, the reconciler does not terminate but holds a
fresh subscription, and after the resubscription a publishable add
event puts the address into the published annotation while a subsequent
remove event takes it out. -/
theorem resubscribe_liveness (cfg : AddrMgrConfig) (st : MgrState) (a : IPNet)
    (hrun : st.stopped = false) (hpub : IsPublishable cfg a = true) :
    (mgrStep cfg st .subClosed).stopped = false ∧
    (mgrStep cfg st .subClosed).subscribed = true ∧
    a.ip ∈ (mgrStep cfg (mgrStep cfg st .subClosed) (.addr (.add a))).published ∧
    a.ip ∉ (mgrStep cfg (mgrStep cfg (mgrStep cfg st .subClosed) (.addr (.add a)))
      (.addr (.remove a))).published := by
  obtain ⟨stp, sub, pub⟩ := st
  dsimp only at hrun
  subst hrun
  refine ⟨rfl, rfl, ?_, ?_⟩
  · simp only [mgrStep, applyAddrEvent, hpub]
    simp only [Bool.false_eq_true, if_false, if_true]
    by_cases hm : a.ip ∈ pub <;> simp [hm]
  · simp only [mgrStep, applyAddrEvent, hpub]
    simp only [Bool.false_eq_true, if_false, if_true]
    by_cases hm : a.ip ∈ pub <;> simp [hm, List.mem_filter]

/-- Witness for resubscribe_liveness: a running subscribed state with
an empty published set and the publishable address 50/24. -/
theorem resubscribe_liveness_witness :
    (mgrStep cfgW { stopped := false, subscribed := true, published := [] } .subClosed).stopped =
      false ∧
    (mgrStep cfgW { stopped := false, subscribed := true, published := [] } .subClosed).subscribed =
      true ∧
    IPNet.ip { ip := .v4 50, pfx := 24 } ∈
      (mgrStep cfgW (mgrStep cfgW { stopped := false, subscribed := true, published := [] }
        .subClosed) (.addr (.add { ip := .v4 50, pfx := 24 }))).published ∧
    IPNet.ip { ip := .v4 50, pfx := 24 } ∉
      (mgrStep cfgW (mgrStep cfgW (mgrStep cfgW
        { stopped := false, subscribed := true, published := [] } .subClosed)
        (.addr (.add { ip := .v4 50, pfx := 24 })))
        (.addr (.remove { ip := .v4 50, pfx := 24 }))).published :=
  resubscribe_liveness cfgW { stopped := false, subscribed := true, published := [] }
    { ip := .v4 50, pfx := 24 } (by rfl) (by decide)

/-- C10: the encoder fails exactly on a single IP with more than one
gateway or on a route with an unspecified destination; in particular an
annotation with no IPs and any number of gateways encodes successfully
whenever its routes are well formed, and IP non-emptiness is never
checked. -/
theorem marshal_error_characterization (p : PodAnn) :
    ((∃ v, marshalPodAnn p = .ok v) ↔
      (¬(p.IPs.length = 1 ∧ p.Gateways.length > 1) ∧
       ∀ r ∈ p.Routes, r.Dest.ip.isUnspecified = false)) ∧
    (p.IPs = [] → (∀ r ∈ p.Routes, r.Dest.ip.isUnspecified = false) →
      ∃ v, marshalPodAnn p = .ok v) := by
  refine ⟨marshalPodAnn_ok_iff p, ?_⟩
  intro hnil hr
  refine (marshalPodAnn_ok_iff p).mpr ⟨?_, hr⟩
  rintro ⟨h1, -⟩
  rw [hnil] at h1
  simp at h1

/-- Witness for marshal_error_characterization: an annotation with no
IPs and three gateways encodes successfully. -/
theorem marshal_error_characterization_witness :
    ∃ v, marshalPodAnn
      { IPs := [], MAC := [], Gateways := [.v4 1, .v4 2, .v4 3], Routes := [] } = .ok v :=
  (marshal_error_characterization
      { IPs := [], MAC := [], Gateways := [.v4 1, .v4 2, .v4 3], Routes := [] }).2
    (by rfl) (by decide)
